import Mathlib

/-!
Verification of the orchestration logic of the AlphaFold 3 run script
(`run/run_af3.py`).  The script is procedural glue: flag validation,
database-path resolution, output-directory bookkeeping, and a sequential
loop invoking collaborator modules (data pipeline, model, post-processing).

The shallow embedding below translates the script into pure Lean
definitions.  Filesystem state is passed explicitly (a snapshot of
existence and directory-listing queries), writes performed by the script
are returned as a list of filesystem operations, and calls into opaque
collaborator modules (featurisation, the neural network, the data
pipeline, post-processing serialisation) are parameters of the embedding.
Python exceptions become values of an error type carried in `Except`.
-/

set_option autoImplicit false

namespace AF3

/-! ## Errors

Python exception classes raised by the script. -/

/-- The Python exceptions that `run_af3.py` can raise. -/
inductive AFError where
  /-- Python ValueError with message `msg`. -/
  | valueError (msg : String)
  /-- Python AssertionError (the unreachable branch in `main`). -/
  | assertionError (msg : String)
  /-- Python OSError re-raised from `os.makedirs` in `main`. -/
  | osError
  /-- Python IndexError from `devices[0]` when no GPU device is present. -/
  | indexError
  /-- Python FileNotFoundError from `replace_db_dir`. -/
  | fileNotFoundError (msg : String)
  deriving DecidableEq, Repr

/-! ## Filesystem model

The script queries the filesystem through `os.path.exists` and
`os.listdir`; the embedding takes a snapshot of both as functions. -/

/-- Filesystem snapshot: `pathExists` models `os.path.exists`,
`entries` models `os.listdir` (empty list for an empty or absent
directory). -/
structure FS where
  pathExists : String → Bool
  entries : String → List String

/-! ## Database path templates and `replace_db_dir`

The database path flags are strings containing the `${DB_DIR}`
placeholder, substituted through `string.Template`.  A template string is
embedded as a token list: literal pieces and placeholder occurrences.
`template.get_identifiers()` containing `DB_DIR` corresponds to the token
list containing a placeholder token, and `template.substitute(DB_DIR=d)`
to replacing every placeholder token by `d` and concatenating. -/

/-- One token of a database path template: a literal piece or one
occurrence of the `${DB_DIR}` placeholder. -/
inductive PathToken where
  | lit (s : String)
  | dbDir
  deriving DecidableEq, Repr

/-- Models `template.substitute(DB_DIR=db_dir)`: replace every placeholder by
`db_dir` and concatenate the pieces. -/
def substituteDbDir (path : List PathToken) (db_dir : String) : String :=
  path.foldl (fun acc t => acc ++ (match t with | .lit s => s | .dbDir => db_dir)) ""

/-- Models the test `DB_DIR in template.get_identifiers()`
(run_af3.py line 387). -/
def hasDbDirIdentifier (path : List PathToken) : Bool :=
  path.any (fun t => match t with | .dbDir => true | .lit _ => false)

/-- The loop body of `replace_db_dir` (run_af3.py lines 388-391): try the
database directories in order, returning the first substituted path that
exists on the filesystem. -/
def findExistingSubstitution (fs : FS) (path : List PathToken) :
    List String → Option String
  | [] => none
  | db_dir :: rest =>
    let p := substituteDbDir path db_dir
    if fs.pathExists p then some p else findExistingSubstitution fs path rest

/-- The function `replace_db_dir` (run_af3.py lines 384-397).  If the template contains
the `DB_DIR` placeholder, substitute each database directory in order and
return the first substituted path that exists, raising
`FileNotFoundError` when none does.  Without the placeholder, return the
path itself if it exists, else raise `FileNotFoundError`.  (In the
no-placeholder branch the substitution argument is irrelevant, so the
concrete path is recovered as `substituteDbDir path ""`.) -/
def replace_db_dir (fs : FS) (path_with_db_dir : List PathToken)
    (db_dirs : List String) : Except AFError String :=
  if hasDbDirIdentifier path_with_db_dir then
    match findExistingSubstitution fs path_with_db_dir db_dirs with
    | some p => .ok p
    | none => .error (.fileNotFoundError "path with DB_DIR not found in any db_dir")
  else
    let p := substituteDbDir path_with_db_dir ""
    if fs.pathExists p then .ok p
    else .error (.fileNotFoundError "path does not exist")

/-! ### Lemmas about `findExistingSubstitution` -/

theorem findExistingSubstitution_some (fs : FS) (path : List PathToken) :
    ∀ (l : List String) (res : String),
      findExistingSubstitution fs path l = some res →
      ∃ i, ∃ h : i < l.length,
        res = substituteDbDir path (l.get ⟨i, h⟩) ∧
        fs.pathExists res = true ∧
        ∀ j, ∀ hj : j < l.length, j < i →
          fs.pathExists (substituteDbDir path (l.get ⟨j, hj⟩)) = false := by
  intro l
  induction l with
  | nil => intro res h; simp [findExistingSubstitution] at h
  | cons d rest ih =>
    intro res h
    by_cases hd : fs.pathExists (substituteDbDir path d) = true
    · simp only [findExistingSubstitution, hd, if_true] at h
      have hres : res = substituteDbDir path d := (Option.some.inj h).symm
      refine ⟨0, by simp, by simpa using hres, by rw [hres]; exact hd, ?_⟩
      intro j hj hj0; omega
    · have hd2 : fs.pathExists (substituteDbDir path d) = false := by
        revert hd; cases fs.pathExists (substituteDbDir path d) <;> simp
      simp only [findExistingSubstitution, hd2, Bool.false_eq_true, if_false] at h
      obtain ⟨i, hi, hres, hex, hfirst⟩ := ih res h
      refine ⟨i + 1, by simpa using Nat.succ_lt_succ hi, by simpa using hres, hex, ?_⟩
      intro j hj hji
      cases j with
      | zero => simpa using hd2
      | succ k =>
        have hk : k < rest.length := by simpa using hj
        have := hfirst k hk (by omega)
        simpa using this

theorem findExistingSubstitution_none (fs : FS) (path : List PathToken) :
    ∀ (l : List String),
      (∀ d ∈ l, fs.pathExists (substituteDbDir path d) = false) →
      findExistingSubstitution fs path l = none := by
  intro l
  induction l with
  | nil => intro _; rfl
  | cons d rest ih =>
    intro h
    have hd := h d (by simp)
    simp only [findExistingSubstitution, hd, Bool.false_eq_true, if_false]
    exact ih (fun x hx => h x (by simp [hx]))

theorem findExistingSubstitution_isSome (fs : FS) (path : List PathToken) :
    ∀ (l : List String),
      (∃ d ∈ l, fs.pathExists (substituteDbDir path d) = true) →
      ∃ res, findExistingSubstitution fs path l = some res := by
  intro l
  induction l with
  | nil => rintro ⟨d, hd, _⟩; simp at hd
  | cons d rest ih =>
    rintro ⟨e, he, hex⟩
    by_cases hd : fs.pathExists (substituteDbDir path d) = true
    · exact ⟨substituteDbDir path d, by simp [findExistingSubstitution, hd]⟩
    · have hd2 : fs.pathExists (substituteDbDir path d) = false := by
        revert hd; cases fs.pathExists (substituteDbDir path d) <;> simp
      rcases List.mem_cons.mp he with rfl | he2
      · exact absurd hex (by simp [hd2])
      · obtain ⟨res, hres⟩ := ih ⟨e, he2, hex⟩
        exact ⟨res, by simp [findExistingSubstitution, hd2, hres]⟩

/-- C2: for a path template containing the `DB_DIR` placeholder,
`replace_db_dir` returns the substitution by the first database directory
(in the given order) for which the substituted path exists; if no
substitution yields an existing path it raises `FileNotFoundError`. -/
theorem replace_db_dir_first_existing (fs : FS) (path : List PathToken)
    (db_dirs : List String) (hp : hasDbDirIdentifier path = true) :
    (∀ res, replace_db_dir fs path db_dirs = .ok res →
      ∃ i, ∃ h : i < db_dirs.length,
        res = substituteDbDir path (db_dirs.get ⟨i, h⟩) ∧
        fs.pathExists res = true ∧
        ∀ j, ∀ hj : j < db_dirs.length, j < i →
          fs.pathExists (substituteDbDir path (db_dirs.get ⟨j, hj⟩)) = false) ∧
    ((∃ d ∈ db_dirs, fs.pathExists (substituteDbDir path d) = true) →
      ∃ res, replace_db_dir fs path db_dirs = .ok res) ∧
    ((∀ d ∈ db_dirs, fs.pathExists (substituteDbDir path d) = false) →
      replace_db_dir fs path db_dirs =
        .error (.fileNotFoundError "path with DB_DIR not found in any db_dir")) := by
  refine ⟨?_, ?_, ?_⟩
  · intro res hres
    simp only [replace_db_dir, hp, if_true] at hres
    cases hfind : findExistingSubstitution fs path db_dirs with
    | none => rw [hfind] at hres; exact absurd hres (by simp)
    | some p =>
      rw [hfind] at hres
      have hp2 : p = res := by simpa using hres
      subst hp2
      exact findExistingSubstitution_some fs path db_dirs p hfind
  · intro hex
    obtain ⟨res, hres⟩ := findExistingSubstitution_isSome fs path db_dirs hex
    exact ⟨res, by simp [replace_db_dir, hp, hres]⟩
  · intro hall
    have := findExistingSubstitution_none fs path db_dirs hall
    simp [replace_db_dir, hp, this]

/-- Witness for C2 at a concrete input: template `${DB_DIR}/db.fa`,
directories `["/a", "/b"]`, where only `/b/db.fa` exists. -/
def fsC2 : FS :=
  { pathExists := fun p => p == "/b/db.fa", entries := fun _ => [] }

/-- The template `${DB_DIR}/db.fa` as a token list. -/
def pathC2 : List PathToken := [.dbDir, .lit "/db.fa"]

theorem replace_db_dir_first_existing_witness :
    hasDbDirIdentifier pathC2 = true ∧
    ((∃ d ∈ ["/a", "/b"], fsC2.pathExists (substituteDbDir pathC2 d) = true) →
      ∃ res, replace_db_dir fsC2 pathC2 ["/a", "/b"] = .ok res) := by
  exact ⟨by decide, (replace_db_dir_first_existing fsC2 pathC2 ["/a", "/b"] (by decide)).2.1⟩

/-! ## Fold inputs and model data

`folding_input.Input` is a collaborator class; the fields the script
reads are its name, chain list, rng seed list, optional user CCD, and the
`sanitised_name()` method (embedded as a data field supplied by the
environment, since its computation lives in the collaborator module). -/

/-- A chain of a fold input (opaque to the script; only the list length
matters here). -/
structure Chain where
  id : String := ""
  deriving DecidableEq, Repr

/-- The fields of `folding_input.Input` that `run_af3.py` reads. -/
structure FoldInput where
  name : String
  chains : List Chain
  rng_seeds : List Int
  user_ccd : Option String := none
  /-- Value of the collaborator method `sanitised_name()`. -/
  sanitised_name : String := ""
  deriving DecidableEq, Repr

/-- A featurised example produced by the collaborator module
`featurisation` (opaque payload). -/
structure FeaturisedExample where
  payload : String := ""
  deriving DecidableEq, Repr

/-- A raw model result produced by the model forward pass (opaque
payload). -/
structure ModelResult where
  payload : String := ""
  deriving DecidableEq, Repr

/-- One inference result (diffusion sample) as consumed by the script:
the script reads only `metadata[ranking_score]` (embedded as a rational,
standing for the parsed float) and otherwise treats the result as an
opaque value to serialise. -/
structure InferenceResult where
  ranking_score : ℚ
  payload : String := ""
  deriving DecidableEq, Repr

/-- The dataclass `ResultsForSeed` (run_af3.py lines 255-268): the inference results
for a single seed. -/
structure ResultsForSeed where
  seed : Int
  inference_results : List InferenceResult
  full_fold_input : FoldInput
  deriving DecidableEq, Repr

/-- The two stages of `ModelRunner` that `predict_structure` calls.  The
rng key passed to the forward pass is derived from the seed by
`jax.random.PRNGKey`, so the embedding keys the forward pass directly by
the seed. -/
structure ModelRunner where
  run_inference : FeaturisedExample → Int → ModelResult
  extract_structures : FeaturisedExample → ModelResult → String → List InferenceResult

/-- Modelled from the spec: `featurisation.featurise_input` (collaborator
module `alphafold3.data.featurisation`, not under src/) produces the
featurised examples for a fold input, one per rng seed, in seed order;
the script zips them with `fold_input.rng_seeds`.  `exampleFor` is the
opaque per-seed featurisation. -/
def featurise_input (exampleFor : FoldInput → Int → FeaturisedExample)
    (fold_input : FoldInput) : List FeaturisedExample :=
  fold_input.rng_seeds.map (exampleFor fold_input)

/-- The function `predict_structure` (run_af3.py lines 271-324): featurise the input,
then for each (seed, example) pair run the model forward pass and extract
the per-sample structures, collecting a `ResultsForSeed` per seed. -/
def predict_structure (exampleFor : FoldInput → Int → FeaturisedExample)
    (model_runner : ModelRunner) (fold_input : FoldInput) : List ResultsForSeed :=
  let featurised_examples := featurise_input exampleFor fold_input
  (fold_input.rng_seeds.zip featurised_examples).map (fun se =>
    let result := model_runner.run_inference se.2 se.1
    { seed := se.1
      inference_results := model_runner.extract_structures se.2 result fold_input.name
      full_fold_input := fold_input })

/-! ## Filesystem operations

Writes performed by the script are returned as a list of operations.
A path is split as the per-job output directory (`base`) plus the
relative components below it (`rel`), mirroring `os.path.join`. -/

/-- Content of a file written by the script. -/
inductive FileContent where
  /-- Content written by `write_fold_input_json`: the processed input JSON. -/
  | inputJson (fi : FoldInput)
  /-- Content of `post_processing.write_output` into a per-sample directory. -/
  | sampleOutput (r : InferenceResult)
  /-- Content of `post_processing.write_output` for the best result at top level,
  with the output terms of use and the job name. -/
  | bestOutput (r : InferenceResult) (terms_of_use : Bool) (name : String)
  /-- Content of `ranking_scores.csv`: header row then one row per (seed, sample,
  score). -/
  | rankingCsv (header : List String) (rows : List (Int × Nat × ℚ))
  deriving DecidableEq, Repr

/-- A filesystem mutation performed by the script. -/
inductive FsOp where
  /-- Models `os.makedirs(base/rel, exist_ok=True)`. -/
  | mkdir (base : String) (rel : List String)
  /-- writing a file under `base/rel` -/
  | write (base : String) (rel : List String) (content : FileContent)
  deriving DecidableEq, Repr

/-- The per-job output directory an operation happens under. -/
def FsOp.base : FsOp → String
  | .mkdir b _ => b
  | .write b _ _ => b

/-- The function `write_fold_input_json` (run_af3.py lines 327-336): ensure the
directory exists and write `{sanitised_name}_data.json`. -/
def write_fold_input_json (fold_input : FoldInput) (output_dir : String) : List FsOp :=
  let nm := fold_input.sanitised_name
  [FsOp.mkdir output_dir [], FsOp.write output_dir [nm ++ "_data.json"] (.inputJson fold_input)]

/-! ## `write_outputs`

The loop in `write_outputs` (run_af3.py lines 345-381) accumulates the
filesystem operations, the ranking-score rows, and the running maximum
(score and result).  The embedding folds the same state through the same
iteration order. -/

/-- The mutable locals of `write_outputs` while looping. -/
structure WOState where
  ops : List FsOp
  ranking_scores : List (Int × Nat × ℚ)
  max_ranking_score : Option ℚ
  max_ranking_result : Option InferenceResult
  deriving DecidableEq, Repr

/-- The inner loop of `write_outputs` over
`enumerate(results_for_seed.inference_results)` (run_af3.py lines
356-366): make the per-sample directory, write the sample output, record
the ranking row, and update the running maximum when the score is
strictly greater (or no maximum exists yet). -/
def woSamples (output_dir : String) (seed : Int) :
    Nat → List InferenceResult → WOState → WOState
  | _, [], st => st
  | sample_idx, result :: rest, st =>
    let sample_dir := "seed-" ++ toString seed ++ "_sample-" ++ toString sample_idx
    let ranking_score := result.ranking_score
    let is_new_max : Bool :=
      match st.max_ranking_score with
      | none => true
      | some m => decide (ranking_score > m)
    let st2 : WOState :=
      { ops := st.ops ++
          [FsOp.mkdir output_dir [sample_dir],
           FsOp.write output_dir [sample_dir] (.sampleOutput result)]
        ranking_scores := st.ranking_scores ++ [(seed, sample_idx, ranking_score)]
        max_ranking_score :=
          if is_new_max then some ranking_score else st.max_ranking_score
        max_ranking_result :=
          if is_new_max then some result else st.max_ranking_result }
    woSamples output_dir seed (sample_idx + 1) rest st2

/-- The outer loop of `write_outputs` over `all_inference_results`
(run_af3.py line 354). -/
def woSeeds (output_dir : String) : List ResultsForSeed → WOState → WOState
  | [], st => st
  | results_for_seed :: rest, st =>
    woSeeds output_dir rest
      (woSamples output_dir results_for_seed.seed 0
        results_for_seed.inference_results st)

/-- The initial loop state of `write_outputs`: the output directory has
been created (run_af3.py line 353), nothing else recorded yet. -/
def woInit (output_dir : String) : WOState :=
  { ops := [FsOp.mkdir output_dir []]
    ranking_scores := []
    max_ranking_score := none
    max_ranking_result := none }

/-- The function `write_outputs` (run_af3.py lines 339-381): make the output
directory, loop over all seeds and samples, and - only when a maximum
result exists (true iff some inference result was seen) - write the
terms-of-use-annotated best result at top level followed by
`ranking_scores.csv` with its header row. -/
def write_outputs (output_dir : String) (job_name : String)
    (all_inference_results : List ResultsForSeed) : List FsOp :=
  let st := woSeeds output_dir all_inference_results (woInit output_dir)
  match st.max_ranking_result with
  | none => st.ops
  | some r =>
    st.ops ++
      [FsOp.write output_dir [] (.bestOutput r true job_name),
       FsOp.write output_dir ["ranking_scores.csv"]
         (.rankingCsv ["seed", "sample", "ranking_score"] st.ranking_scores)]

/-! ### Specification functions for `write_outputs` -/

/-- All inference results of a run, flattened in iteration order. -/
def flatResults (all : List ResultsForSeed) : List InferenceResult :=
  all.flatMap (·.inference_results)

/-- The expected rows of `ranking_scores.csv`: one (seed, sample index,
ranking score) triple per inference result, in iteration order. -/
def specRows (all : List ResultsForSeed) : List (Int × Nat × ℚ) :=
  all.flatMap (fun rfs =>
    rfs.inference_results.enum.map (fun p => (rfs.seed, p.1, p.2.ranking_score)))

/-- Predicate: `r` is the first result of `l` attaining the maximal ranking score:
every score is at most its score, and every result strictly before it has
a strictly smaller score. -/
def IsFirstMax (l : List InferenceResult) (r : InferenceResult) : Prop :=
  (∀ x ∈ l, x.ranking_score ≤ r.ranking_score) ∧
  ∃ i, ∃ h : i < l.length,
    l.get ⟨i, h⟩ = r ∧ ∀ x ∈ l.take i, x.ranking_score < r.ranking_score

/-- The running-maximum update of `write_outputs`, isolated on the
result list. -/
def bestFoldOpt : Option InferenceResult → List InferenceResult → Option InferenceResult
  | o, [] => o
  | o, r :: rest =>
    let is_new_max : Bool :=
      match o with
      | none => true
      | some m => decide (r.ranking_score > m.ranking_score)
    bestFoldOpt (if is_new_max then some r else o) rest

/-- The running maximum starting from a seen result `a`. -/
def bfRun (a : InferenceResult) : List InferenceResult → InferenceResult
  | [] => a
  | x :: xs => if x.ranking_score > a.ranking_score then bfRun x xs else bfRun a xs

/-! ### Lemmas about the running maximum -/

theorem bestFoldOpt_some (l : List InferenceResult) :
    ∀ a : InferenceResult, bestFoldOpt (some a) l = some (bfRun a l) := by
  induction l with
  | nil => intro a; rfl
  | cons x xs ih =>
    intro a
    by_cases hgt : x.ranking_score > a.ranking_score
    · have hd : decide (x.ranking_score > a.ranking_score) = true := decide_eq_true hgt
      simp only [bestFoldOpt, bfRun, hd, if_true, if_pos hgt]
      exact ih x
    · have hd : decide (x.ranking_score > a.ranking_score) = false := decide_eq_false hgt
      simp only [bestFoldOpt, bfRun, hd, if_false, if_neg hgt]
      exact ih a

theorem bestFoldOpt_cons_none (x : InferenceResult) (xs : List InferenceResult) :
    bestFoldOpt none (x :: xs) = some (bfRun x xs) := by
  simp only [bestFoldOpt]
  exact bestFoldOpt_some xs x

theorem bestFoldOpt_append (l1 l2 : List InferenceResult) :
    ∀ o, bestFoldOpt o (l1 ++ l2) = bestFoldOpt (bestFoldOpt o l1) l2 := by
  induction l1 with
  | nil => intro o; rfl
  | cons x xs ih =>
    intro o
    simp only [List.cons_append, bestFoldOpt]
    exact ih _

theorem bfRun_firstMax (l : List InferenceResult) :
    ∀ a : InferenceResult, IsFirstMax (a :: l) (bfRun a l) := by
  induction l with
  | nil =>
    intro a
    refine ⟨?_, 0, by simp, rfl, by simp⟩
    intro x hx
    have : x = a := by simpa using hx
    simp [this, bfRun]
  | cons x xs ih =>
    intro a
    by_cases hgt : x.ranking_score > a.ranking_score
    · have hbf : bfRun a (x :: xs) = bfRun x xs := by simp [bfRun, hgt]
      obtain ⟨hle, i, hi, hget, hfirst⟩ := ih x
      rw [hbf]
      have hxle : x.ranking_score ≤ (bfRun x xs).ranking_score := hle x (by simp)
      refine ⟨?_, i + 1, by simpa using Nat.succ_lt_succ hi, by simpa using hget, ?_⟩
      · intro y hy
        rcases List.mem_cons.mp hy with rfl | hy2
        · exact le_trans (le_of_lt hgt) hxle
        · exact hle y hy2
      · intro y hy
        rw [List.take_succ_cons] at hy
        rcases List.mem_cons.mp hy with rfl | hy2
        · exact lt_of_lt_of_le hgt hxle
        · exact hfirst y hy2
    · have hbf : bfRun a (x :: xs) = bfRun a xs := by simp [bfRun, hgt]
      have hxa : x.ranking_score ≤ a.ranking_score := le_of_not_lt hgt
      obtain ⟨hle, i, hi, hget, hfirst⟩ := ih a
      rw [hbf]
      have hale : a.ranking_score ≤ (bfRun a xs).ranking_score := hle a (by simp)
      cases i with
      | zero =>
        have hra : bfRun a xs = a := by simpa using hget.symm
        refine ⟨?_, 0, by simp, by simpa using hget, by simp⟩
        intro y hy
        rcases List.mem_cons.mp hy with rfl | hy2
        · exact hale
        · rcases List.mem_cons.mp hy2 with rfl | hy3
          · rw [hra]; exact hxa
          · exact hle y (by simp [hy3])
      | succ k =>
        have hk : k < xs.length := by simpa using hi
        have halt : a.ranking_score < (bfRun a xs).ranking_score := by
          apply hfirst
          rw [List.take_succ_cons]
          simp
        refine ⟨?_, k + 2, by simpa using Nat.succ_lt_succ hi, ?_, ?_⟩
        · intro y hy
          rcases List.mem_cons.mp hy with rfl | hy2
          · exact hale
          · rcases List.mem_cons.mp hy2 with rfl | hy3
            · exact le_trans hxa hale
            · exact hle y (by simp [hy3])
        · have : (a :: x :: xs).get ⟨k + 2, by simpa using Nat.succ_lt_succ hi⟩ =
              (a :: xs).get ⟨k + 1, hi⟩ := rfl
          rw [this]; exact hget
        · intro y hy
          rw [List.take_succ_cons, List.take_succ_cons] at hy
          rcases List.mem_cons.mp hy with rfl | hy2
          · exact halt
          · rcases List.mem_cons.mp hy2 with rfl | hy3
            · exact lt_of_le_of_lt hxa halt
            · apply hfirst
              rw [List.take_succ_cons]
              simp [hy3]

/-! ### Lemmas about the `write_outputs` loop state -/

theorem woSamples_ops_base (d : String) (seed : Int) (l : List InferenceResult) :
    ∀ (idx : Nat) (st : WOState),
      (∀ op ∈ st.ops, op.base = d) →
      ∀ op ∈ (woSamples d seed idx l st).ops, op.base = d := by
  induction l with
  | nil => intro idx st h; simpa [woSamples] using h
  | cons r rest ih =>
    intro idx st h
    simp only [woSamples]
    apply ih
    intro op hop
    rcases List.mem_append.mp hop with h1 | h2
    · exact h op h1
    · rcases List.mem_cons.mp h2 with rfl | h3
      · rfl
      · rcases List.mem_cons.mp h3 with rfl | h4
        · rfl
        · simp at h4

theorem woSamples_rows (d : String) (seed : Int) (l : List InferenceResult) :
    ∀ (idx : Nat) (st : WOState),
      (woSamples d seed idx l st).ranking_scores =
        st.ranking_scores ++
          (l.enumFrom idx).map (fun p => (seed, p.1, p.2.ranking_score)) := by
  induction l with
  | nil => intro idx st; simp [woSamples, List.enumFrom]
  | cons r rest ih =>
    intro idx st
    simp only [woSamples]
    rw [ih]
    simp [List.enumFrom, List.append_assoc]

theorem woSamples_max (d : String) (seed : Int) (l : List InferenceResult) :
    ∀ (idx : Nat) (st : WOState),
      st.max_ranking_score = st.max_ranking_result.map InferenceResult.ranking_score →
      (woSamples d seed idx l st).max_ranking_result =
        bestFoldOpt st.max_ranking_result l ∧
      (woSamples d seed idx l st).max_ranking_score =
        (bestFoldOpt st.max_ranking_result l).map InferenceResult.ranking_score := by
  induction l with
  | nil => intro idx st hsync; simp [woSamples, bestFoldOpt, hsync]
  | cons r rest ih =>
    intro idx st hsync
    cases hmr : st.max_ranking_result with
    | none =>
      have hms : st.max_ranking_score = none := by rw [hsync, hmr]; rfl
      simp only [woSamples, hms, hmr, bestFoldOpt]
      exact ih (idx + 1) _ (by simp)
    | some m =>
      have hms : st.max_ranking_score = some m.ranking_score := by rw [hsync, hmr]; rfl
      simp only [woSamples, hms, hmr, bestFoldOpt]
      by_cases hgt : r.ranking_score > m.ranking_score
      · have hd : decide (r.ranking_score > m.ranking_score) = true := decide_eq_true hgt
        simp only [hd, if_true]
        exact ih (idx + 1) _ (by simp)
      · have hd : decide (r.ranking_score > m.ranking_score) = false := decide_eq_false hgt
        simp only [hd, if_false]
        exact ih (idx + 1) _ (by simp)

theorem woSeeds_ops_base (d : String) (all : List ResultsForSeed) :
    ∀ st : WOState, (∀ op ∈ st.ops, op.base = d) →
      ∀ op ∈ (woSeeds d all st).ops, op.base = d := by
  induction all with
  | nil => intro st h; simpa [woSeeds] using h
  | cons a rest ih =>
    intro st h
    simp only [woSeeds]
    exact ih _ (woSamples_ops_base d a.seed a.inference_results 0 st h)

theorem woSeeds_rows (d : String) (all : List ResultsForSeed) :
    ∀ st : WOState,
      (woSeeds d all st).ranking_scores = st.ranking_scores ++ specRows all := by
  induction all with
  | nil => intro st; simp [woSeeds, specRows]
  | cons a rest ih =>
    intro st
    simp only [woSeeds]
    rw [ih, woSamples_rows]
    simp [specRows, List.append_assoc, List.enum_eq_enumFrom]

theorem woSeeds_max (d : String) (all : List ResultsForSeed) :
    ∀ st : WOState,
      st.max_ranking_score = st.max_ranking_result.map InferenceResult.ranking_score →
      (woSeeds d all st).max_ranking_result =
        bestFoldOpt st.max_ranking_result (flatResults all) ∧
      (woSeeds d all st).max_ranking_score =
        (bestFoldOpt st.max_ranking_result (flatResults all)).map
          InferenceResult.ranking_score := by
  induction all with
  | nil => intro st h; simp [woSeeds, flatResults, bestFoldOpt, h]
  | cons a rest ih =>
    intro st h
    obtain ⟨h1, h2⟩ := woSamples_max d a.seed a.inference_results 0 st h
    have hsync2 : (woSamples d a.seed 0 a.inference_results st).max_ranking_score =
        (woSamples d a.seed 0 a.inference_results st).max_ranking_result.map
          InferenceResult.ranking_score := by rw [h1, h2]
    obtain ⟨g1, g2⟩ := ih _ hsync2
    have hflat : flatResults (a :: rest) = a.inference_results ++ flatResults rest := by
      simp [flatResults]
    constructor
    · rw [woSeeds, g1, h1, hflat, bestFoldOpt_append]
    · rw [woSeeds, g2, h1, hflat, bestFoldOpt_append]

/-! ### Claims C3 and C10 -/

theorem write_outputs_shape (d job : String) (all : List ResultsForSeed)
    (x : InferenceResult) (xs : List InferenceResult)
    (hflat : flatResults all = x :: xs) :
    write_outputs d job all =
      (woSeeds d all (woInit d)).ops ++
        [FsOp.write d [] (.bestOutput (bfRun x xs) true job),
         FsOp.write d ["ranking_scores.csv"]
           (.rankingCsv ["seed", "sample", "ranking_score"] (specRows all))] := by
  have hmax : (woSeeds d all (woInit d)).max_ranking_result = some (bfRun x xs) := by
    have h := (woSeeds_max d all (woInit d) rfl).1
    rw [h, hflat]
    simp only [woInit]
    exact bestFoldOpt_cons_none x xs
  have hrows : (woSeeds d all (woInit d)).ranking_scores = specRows all := by
    rw [woSeeds_rows]; rfl
  simp only [write_outputs, hmax, hrows]

/-- C3 (amended): for every sequence of per-seed results containing at
least one inference result, `write_outputs` writes a top-level
`ranking_scores.csv` whose content is the header row followed by one
(seed, sample index, ranking score) row per inference result in
iteration order, and a terms-of-use-annotated top-level copy of the
best-ranked result - the first result attaining the maximal ranking
score under strictly-greater comparison. -/
theorem write_outputs_ranking_and_best (d job : String)
    (all : List ResultsForSeed) (hne : flatResults all ≠ []) :
    ∃ r,
      FsOp.write d ["ranking_scores.csv"]
          (.rankingCsv ["seed", "sample", "ranking_score"] (specRows all)) ∈
        write_outputs d job all ∧
      FsOp.write d [] (.bestOutput r true job) ∈ write_outputs d job all ∧
      IsFirstMax (flatResults all) r := by
  cases hflat : flatResults all with
  | nil => exact absurd hflat hne
  | cons x xs =>
    refine ⟨bfRun x xs, ?_, ?_, ?_⟩
    · rw [write_outputs_shape d job all x xs hflat]
      exact List.mem_append_right _ (by simp)
    · rw [write_outputs_shape d job all x xs hflat]
      exact List.mem_append_right _ (by simp)
    · exact bfRun_firstMax xs x

/-- A concrete fold input used by the concrete-instance theorems. -/
def fiW : FoldInput :=
  { name := "x", chains := [{ id := "A" }], rng_seeds := [1], sanitised_name := "x" }

/-- Counterexample to C3 as stated: a non-empty sequence of per-seed
results whose only bundle has no inference results.  `write_outputs`
creates the output directory but writes neither `ranking_scores.csv` nor
a best-result copy. -/
theorem write_outputs_empty_results_counterexample :
    ([({ seed := 1, inference_results := [], full_fold_input := fiW } : ResultsForSeed)] ≠
        ([] : List ResultsForSeed)) ∧
    write_outputs "out" "job"
        [{ seed := 1, inference_results := [], full_fold_input := fiW }] =
      [FsOp.mkdir "out" []] := by
  exact ⟨by simp, rfl⟩

/-- A concrete run with one seed and two samples, the second ranking
highest. -/
def allW : List ResultsForSeed :=
  [{ seed := 7
     inference_results := [{ ranking_score := 1, payload := "s0" },
                           { ranking_score := 2, payload := "s1" }]
     full_fold_input := fiW }]

/-- Witness for C3 (amended) at the concrete input `allW`. -/
theorem write_outputs_ranking_and_best_witness :
    flatResults allW ≠ [] ∧
    ∃ r,
      FsOp.write "o" ["ranking_scores.csv"]
          (.rankingCsv ["seed", "sample", "ranking_score"] (specRows allW)) ∈
        write_outputs "o" "j" allW ∧
      FsOp.write "o" [] (.bestOutput r true "j") ∈ write_outputs "o" "j" allW ∧
      IsFirstMax (flatResults allW) r := by
  refine ⟨by simp [flatResults, allW], ?_⟩
  exact write_outputs_ranking_and_best "o" "j" allW (by simp [flatResults, allW])

/-- C10: when the per-seed results yield no inference results at all,
`write_outputs` still creates the output directory but writes nothing
else - no `ranking_scores.csv` and no top-level best-result copy. -/
theorem write_outputs_no_inference_results (d job : String)
    (all : List ResultsForSeed) (h : flatResults all = []) :
    write_outputs d job all = [FsOp.mkdir d []] := by
  have hpt : ∀ a ∈ all, a.inference_results = [] := by
    simp only [flatResults, List.flatMap_eq_nil_iff] at h
    exact h
  have hst : woSeeds d all (woInit d) = woInit d := by
    clear h
    induction all with
    | nil => rfl
    | cons a rest ih =>
      simp only [woSeeds, hpt a (by simp)]
      exact ih (fun x hx => hpt x (by simp [hx]))
  simp only [write_outputs, hst]
  rfl

/-- Two per-seed bundles, both with empty inference-result lists. -/
def allNoResultsW : List ResultsForSeed :=
  [{ seed := 1, inference_results := [], full_fold_input := fiW },
   { seed := 2, inference_results := [], full_fold_input := fiW }]

/-- Witness for C10 at the concrete input `allNoResultsW`. -/
theorem write_outputs_no_inference_results_witness :
    flatResults allNoResultsW = [] ∧
    write_outputs "od" "jn" allNoResultsW = [FsOp.mkdir "od" []] := by
  refine ⟨by simp [flatResults, allNoResultsW], ?_⟩
  exact write_outputs_no_inference_results "od" "jn" allNoResultsW
    (by simp [flatResults, allNoResultsW])

/-! ### Claim C6: `predict_structure` -/

theorem zip_self_map {α β γ : Type} (f : α → β) (g : α × β → γ) :
    ∀ l : List α, (l.zip (l.map f)).map g = l.map (fun a => g (a, f a)) := by
  intro l
  induction l with
  | nil => rfl
  | cons x xs ih => simp [ih]

/-- C6: for a fold input with a non-empty seed list, `predict_structure`
returns exactly one result bundle per seed of `fold_input.rng_seeds`, in
order, each bundle carrying the corresponding seed, the structures
extracted from the model output for that seed, and the fold input that
was passed in. -/
theorem predict_structure_per_seed (exampleFor : FoldInput → Int → FeaturisedExample)
    (model_runner : ModelRunner) (fold_input : FoldInput)
    (_hne : fold_input.rng_seeds ≠ []) :
    (predict_structure exampleFor model_runner fold_input).length =
      fold_input.rng_seeds.length ∧
    predict_structure exampleFor model_runner fold_input =
      fold_input.rng_seeds.map (fun seed =>
        { seed := seed
          inference_results := model_runner.extract_structures
            (exampleFor fold_input seed)
            (model_runner.run_inference (exampleFor fold_input seed) seed)
            fold_input.name
          full_fold_input := fold_input }) := by
  have h2 : predict_structure exampleFor model_runner fold_input =
      fold_input.rng_seeds.map (fun seed =>
        { seed := seed
          inference_results := model_runner.extract_structures
            (exampleFor fold_input seed)
            (model_runner.run_inference (exampleFor fold_input seed) seed)
            fold_input.name
          full_fold_input := fold_input }) := by
    simp only [predict_structure, featurise_input]
    rw [zip_self_map]
  exact ⟨by rw [h2]; simp, h2⟩

/-- A concrete featurisation function for the witnesses. -/
def exFnW : FoldInput → Int → FeaturisedExample :=
  fun fi s => { payload := fi.name ++ toString s }

/-- A concrete model runner for the witnesses. -/
def mrW : ModelRunner :=
  { run_inference := fun ex s => { payload := ex.payload ++ toString s }
    extract_structures := fun ex res nm =>
      [{ ranking_score := 1, payload := ex.payload ++ res.payload ++ nm }] }

/-- Witness for C6 at a concrete input. -/
theorem predict_structure_per_seed_witness :
    fiW.rng_seeds ≠ [] ∧
    ((predict_structure exFnW mrW fiW).length = fiW.rng_seeds.length ∧
     predict_structure exFnW mrW fiW =
       fiW.rng_seeds.map (fun seed =>
         { seed := seed
           inference_results := mrW.extract_structures (exFnW fiW seed)
             (mrW.run_inference (exFnW fiW seed) seed) fiW.name
           full_fold_input := fiW })) :=
  ⟨by decide, predict_structure_per_seed exFnW mrW fiW (by decide)⟩

/-! ## `process_fold_input` -/

/-- The value `process_fold_input` returns: the processed fold input when
inference is skipped, else the per-seed results. -/
inductive ProcessOutput where
  | processedInput (fi : FoldInput)
  | results (rs : List ResultsForSeed)
  deriving DecidableEq, Repr

/-- What one call to `process_fold_input` does when it does not raise:
the directory it resolved to after the collision check, the filesystem
operations it performed (in order), and its return value. -/
structure ProcessResult where
  effectiveDir : String
  ops : List FsOp
  output : ProcessOutput
  deriving DecidableEq, Repr

/-- The function `process_fold_input` (run_af3.py lines 422-504).  Raise `ValueError`
on an empty chain list; switch to the timestamped sibling directory
`output_dir_now` when the output directory exists and is non-empty; run
the data pipeline (when configured) to enrich the fold input; write the
input JSON, and - when a model runner is given - predict and write the
outputs.  `now` is the `datetime.now().strftime(...)` timestamp. -/
def process_fold_input (exampleFor : FoldInput → Int → FeaturisedExample)
    (fold_input : FoldInput) (data_pipeline : Option (FoldInput → FoldInput))
    (model_runner : Option ModelRunner) (output_dir : String) (fs : FS)
    (now : String) : Except AFError ProcessResult :=
  if fold_input.chains = [] then
    .error (.valueError "Fold input has no chains.")
  else
    let collide := fs.pathExists output_dir && !(fs.entries output_dir).isEmpty
    let output_dir2 := if collide then output_dir ++ "_" ++ now else output_dir
    let fold_input2 := match data_pipeline with
      | none => fold_input
      | some p => p fold_input
    let jsonOps := write_fold_input_json fold_input2 output_dir2
    match model_runner with
    | none =>
      .ok { effectiveDir := output_dir2, ops := jsonOps
            output := .processedInput fold_input2 }
    | some runner =>
      let all_inference_results := predict_structure exampleFor runner fold_input2
      .ok { effectiveDir := output_dir2
            ops := jsonOps ++
              write_outputs output_dir2 fold_input2.sanitised_name all_inference_results
            output := .results all_inference_results }

/-! ### Lemmas about where `process_fold_input` writes -/

theorem write_fold_input_json_base (fi : FoldInput) (d : String) :
    ∀ op ∈ write_fold_input_json fi d, FsOp.base op = d := by
  intro op hop
  rcases List.mem_cons.mp hop with rfl | h2
  · rfl
  · rcases List.mem_cons.mp h2 with rfl | h3
    · rfl
    · simp at h3

theorem write_outputs_base (d job : String) (all : List ResultsForSeed) :
    ∀ op ∈ write_outputs d job all, FsOp.base op = d := by
  intro op hop
  have hinit : ∀ o ∈ (woInit d).ops, FsOp.base o = d := by
    intro o ho
    rcases List.mem_cons.mp ho with rfl | h2
    · rfl
    · simp at h2
  have hst := woSeeds_ops_base d all (woInit d) hinit
  simp only [write_outputs] at hop
  split at hop
  · exact hst op hop
  · rcases List.mem_append.mp hop with h1 | h2
    · exact hst op h1
    · rcases List.mem_cons.mp h2 with rfl | h3
      · rfl
      · rcases List.mem_cons.mp h3 with rfl | h4
        · rfl
        · simp at h4

/-- When the fold input has chains, `process_fold_input` succeeds, its
effective directory is the collision-checked one, and every operation it
performs is under that directory. -/
theorem process_fold_input_ok (exampleFor : FoldInput → Int → FeaturisedExample)
    (fold_input : FoldInput) (data_pipeline : Option (FoldInput → FoldInput))
    (model_runner : Option ModelRunner) (output_dir : String) (fs : FS)
    (now : String) (hch : fold_input.chains ≠ []) :
    ∃ r, process_fold_input exampleFor fold_input data_pipeline model_runner
        output_dir fs now = .ok r ∧
      r.effectiveDir =
        (if fs.pathExists output_dir && !(fs.entries output_dir).isEmpty
          then output_dir ++ "_" ++ now else output_dir) ∧
      ∀ op ∈ r.ops, FsOp.base op = r.effectiveDir := by
  simp only [process_fold_input, if_neg hch]
  cases model_runner with
  | none =>
    refine ⟨_, rfl, rfl, ?_⟩
    exact write_fold_input_json_base _ _
  | some runner =>
    refine ⟨_, rfl, rfl, ?_⟩
    intro op hop
    rcases List.mem_append.mp hop with h1 | h2
    · exact write_fold_input_json_base _ _ op h1
    · exact write_outputs_base _ _ _ op h2

/-- C4 (amended): when the per-job output directory collides with an
existing non-empty directory, every output of the (non-raising) call is
redirected to the sibling directory suffixed with the current timestamp,
which differs from the pre-existing directory, so the pre-existing
directory receives no write. -/
theorem process_fold_input_collision_nonempty
    (exampleFor : FoldInput → Int → FeaturisedExample) (fold_input : FoldInput)
    (data_pipeline : Option (FoldInput → FoldInput))
    (model_runner : Option ModelRunner) (output_dir : String) (fs : FS)
    (now : String) (hex : fs.pathExists output_dir = true)
    (hne : fs.entries output_dir ≠ []) (r : ProcessResult)
    (hok : process_fold_input exampleFor fold_input data_pipeline model_runner
      output_dir fs now = .ok r) :
    r.effectiveDir = output_dir ++ "_" ++ now ∧
    r.effectiveDir ≠ output_dir ∧
    ∀ op ∈ r.ops, FsOp.base op = r.effectiveDir := by
  have hch : fold_input.chains ≠ [] := by
    intro h
    simp only [process_fold_input, if_pos h] at hok
    exact absurd hok (by simp)
  obtain ⟨r0, h0, hdir0, hbase0⟩ :=
    process_fold_input_ok exampleFor fold_input data_pipeline model_runner
      output_dir fs now hch
  have hr : r = r0 := by
    rw [hok] at h0
    exact Except.ok.inj h0
  subst hr
  have hcol : (fs.pathExists output_dir && !(fs.entries output_dir).isEmpty) = true := by
    cases h : fs.entries output_dir with
    | nil => exact absurd h hne
    | cons a as => simp [hex, h, List.isEmpty]
  rw [hcol] at hdir0
  simp only [if_true] at hdir0
  have hneq : output_dir ++ "_" ++ now ≠ output_dir := by
    intro h
    have h2 := congrArg String.length h
    rw [String.length_append, String.length_append] at h2
    have h3 : ("_" : String).length = 1 := rfl
    omega
  exact ⟨hdir0, by rw [hdir0]; exact hneq, hbase0⟩

/-- Counterexample to C4 as stated: the output directory exists but is
empty, and `process_fold_input` reuses it rather than redirecting to a
timestamped directory - its writes land in the pre-existing directory. -/
def fsEmptyDir : FS :=
  { pathExists := fun p => p == "o/x", entries := fun _ => [] }

theorem process_fold_input_empty_collision_counterexample :
    fsEmptyDir.pathExists "o/x" = true ∧
    process_fold_input exFnW fiW none none "o/x" fsEmptyDir "T" =
      .ok { effectiveDir := "o/x"
            ops := [FsOp.mkdir "o/x" [],
                    FsOp.write "o/x" ["x_data.json"] (.inputJson fiW)]
            output := .processedInput fiW } := by
  exact ⟨rfl, rfl⟩

/-- Witness for C4 (amended) at a concrete input: a non-empty
pre-existing output directory. -/
def fsColl : FS :=
  { pathExists := fun p => p == "o/x"
    entries := fun p => if p == "o/x" then ["old"] else [] }

/-- The result of the concrete collision call. -/
def rColl : ProcessResult :=
  { effectiveDir := "o/x_T"
    ops := [FsOp.mkdir "o/x_T" [],
            FsOp.write "o/x_T" ["x_data.json"] (.inputJson fiW)]
    output := .processedInput fiW }

theorem process_fold_input_collision_nonempty_witness :
    fsColl.pathExists "o/x" = true ∧ fsColl.entries "o/x" ≠ [] ∧
    process_fold_input exFnW fiW none none "o/x" fsColl "T" = .ok rColl ∧
    (rColl.effectiveDir = "o/x" ++ "_" ++ "T" ∧ rColl.effectiveDir ≠ "o/x" ∧
      ∀ op ∈ rColl.ops, FsOp.base op = rColl.effectiveDir) := by
  refine ⟨rfl, by decide, rfl, ?_⟩
  exact process_fold_input_collision_nonempty exFnW fiW none none "o/x" fsColl "T"
    rfl (by decide) rColl rfl

/-- C5: a fold input with an empty chain list makes `process_fold_input`
raise `ValueError` immediately - no directory is created or renamed and
no file is written (the error result carries no filesystem operation). -/
theorem process_fold_input_no_chains
    (exampleFor : FoldInput → Int → FeaturisedExample) (fold_input : FoldInput)
    (data_pipeline : Option (FoldInput → FoldInput))
    (model_runner : Option ModelRunner) (output_dir : String) (fs : FS)
    (now : String) (h : fold_input.chains = []) :
    process_fold_input exampleFor fold_input data_pipeline model_runner
      output_dir fs now = .error (.valueError "Fold input has no chains.") := by
  simp only [process_fold_input, if_pos h]

/-- A fold input with no chains. -/
def fiNoChains : FoldInput :=
  { name := "e", chains := [], rng_seeds := [1], sanitised_name := "e" }

/-- Witness for C5 at a concrete input. -/
theorem process_fold_input_no_chains_witness :
    fiNoChains.chains = [] ∧
    process_fold_input exFnW fiNoChains none none "o" fsEmptyDir "T" =
      .error (.valueError "Fold input has no chains.") :=
  ⟨rfl, process_fold_input_no_chains exFnW fiNoChains none none "o" fsEmptyDir "T" rfl⟩

/-- C9: an existing but empty per-job output directory is reused as-is -
all outputs are written directly into it - and the timestamped fallback
is used only when the directory exists and is non-empty. -/
theorem process_fold_input_empty_dir_reused
    (exampleFor : FoldInput → Int → FeaturisedExample) (fold_input : FoldInput)
    (data_pipeline : Option (FoldInput → FoldInput))
    (model_runner : Option ModelRunner) (output_dir : String) (fs : FS)
    (now : String) (hch : fold_input.chains ≠ []) :
    (fs.pathExists output_dir = true → fs.entries output_dir = [] →
      ∃ r, process_fold_input exampleFor fold_input data_pipeline model_runner
          output_dir fs now = .ok r ∧
        r.effectiveDir = output_dir ∧ ∀ op ∈ r.ops, FsOp.base op = output_dir) ∧
    (∀ r, process_fold_input exampleFor fold_input data_pipeline model_runner
        output_dir fs now = .ok r → r.effectiveDir ≠ output_dir →
      fs.pathExists output_dir = true ∧ fs.entries output_dir ≠ []) := by
  obtain ⟨r0, h0, hdir0, hbase0⟩ :=
    process_fold_input_ok exampleFor fold_input data_pipeline model_runner
      output_dir fs now hch
  constructor
  · intro hex hempty
    have hcol : (fs.pathExists output_dir && !(fs.entries output_dir).isEmpty) = false := by
      simp [hempty, List.isEmpty]
    rw [hcol] at hdir0
    rw [if_neg (by simp)] at hdir0
    exact ⟨r0, h0, hdir0, by rw [← hdir0]; exact hbase0⟩
  · intro r hok hneq
    have hr : r = r0 := by
      rw [hok] at h0
      exact Except.ok.inj h0
    subst hr
    by_cases hcol : (fs.pathExists output_dir && !(fs.entries output_dir).isEmpty) = true
    · obtain ⟨h1, h2⟩ := Bool.and_eq_true_iff.mp hcol
      refine ⟨h1, ?_⟩
      intro hnil
      rw [hnil] at h2
      simp [List.isEmpty] at h2
    · have hcolf : (fs.pathExists output_dir && !(fs.entries output_dir).isEmpty) = false := by
        revert hcol
        cases fs.pathExists output_dir && !(fs.entries output_dir).isEmpty <;> simp
      rw [hcolf] at hdir0
      rw [if_neg (by simp)] at hdir0
      exact absurd hdir0 hneq

/-- Witness for C9 at a concrete input: the directory `o/x` exists and is
empty, so it is reused. -/
theorem process_fold_input_empty_dir_reused_witness :
    fiW.chains ≠ [] ∧
    (fsEmptyDir.pathExists "o/x" = true → fsEmptyDir.entries "o/x" = [] →
      ∃ r, process_fold_input exFnW fiW none none "o/x" fsEmptyDir "T" = .ok r ∧
        r.effectiveDir = "o/x" ∧ ∀ op ∈ r.ops, FsOp.base op = "o/x") := by
  refine ⟨by decide, ?_⟩
  exact (process_fold_input_empty_dir_reused exFnW fiW none none "o/x" fsEmptyDir "T"
    (by decide)).1

/-! ## `main`

`main(args_dict)` (run_af3.py lines 507-644).  The embedding keeps the
argument-dictionary entries `main` branches on, and an environment
holding everything `main` observes from outside: GPU devices, the
`XLA_FLAGS` check, whether `os.makedirs` succeeds, the fold inputs the
loaders yield, the filesystem snapshot, the timestamp, the database
directories and path-flag templates, and the opaque collaborator
functions.  `main` returns the ordered effects it performed together
with `.ok ()` or the first exception raised. -/

/-- One local GPU device; `compute_capability` stands for
`float(device.compute_capability)`. -/
structure Device where
  compute_capability : ℚ
  deriving DecidableEq, Repr

/-- The entries of `args_dict` that `main` reads (the remaining entries
only parametrise opaque collaborators). -/
structure Args where
  jax_compilation_cache_dir : Option String := none
  json_path : Option String
  input_dir : Option String
  output_dir : String
  run_data_pipeline : Bool
  run_inference : Bool
  deriving DecidableEq, Repr

/-- Where `main` loaded the fold inputs from. -/
inductive LoadSrc where
  | fromDir (d : String)
  | fromPath (p : String)
  deriving DecidableEq, Repr

/-- An externally visible step of `main`, in execution order. -/
inductive Effect where
  /-- Models `os.makedirs(args_dict[output_dir], exist_ok=True)` (line 526). -/
  | mkdirOutput (dir : String)
  /-- loading the fold inputs (lines 531-544) -/
  | loadInputs (src : LoadSrc)
  /-- one `process_fold_input` call of the final loop (lines 633-642) -/
  | processInput (name : String)
  deriving DecidableEq, Repr

/-- Is the effect a `process_fold_input` call? -/
def Effect.isProcess : Effect → Bool
  | .processInput _ => true
  | _ => false

/-- The environment `main` runs in. -/
structure Env where
  gpu_devices : List Device
  /-- Whether `XLA_FLAGS` is set and contains the flag required for
  compute capability 7.x (line 563). -/
  xla_flags_ok : Bool
  /-- Whether `os.makedirs(args_dict[output_dir])` succeeds. -/
  mkdir_ok : Bool
  /-- The fold inputs yielded by the loader. -/
  fold_inputs : List FoldInput
  fs : FS
  /-- The `datetime.now().strftime(...)` timestamp. -/
  now : String
  /-- Value of `DB_DIR.value`: the database directories, in order. -/
  db_dirs : List String
  /-- The values of the nine database path flags, as templates. -/
  db_paths : List (List PathToken)
  /-- Models `pipeline.DataPipeline(config).process` (collaborator). -/
  pipelineProcess : FoldInput → FoldInput
  /-- per-seed featurisation (collaborator). -/
  exampleFor : FoldInput → Int → FeaturisedExample
  /-- the jitted model forward pass (collaborator). -/
  runInferenceFn : FeaturisedExample → Int → ModelResult
  /-- structure extraction (collaborator). -/
  extractFn : FeaturisedExample → ModelResult → String → List InferenceResult

/-- The input-source selection (run_af3.py lines 531-548): `input_dir`
takes the first branch, then `json_path`, then the (unreachable when the
line-513 check passed) `AssertionError`. -/
def loadChoice (args : Args) : Except AFError LoadSrc :=
  match args.input_dir with
  | some d => .ok (.fromDir d)
  | none =>
    match args.json_path with
    | some p => .ok (.fromPath p)
    | none =>
      .error (.assertionError "Exactly one of --json_path or --input_dir must be specified.")

/-- The GPU compatibility check (run_af3.py lines 550-568), performed
only when `run_inference` is set: with at least one local GPU device,
compute capability below 6.0 raises `ValueError`, and capability in
[7.0, 8.0) without the required `XLA_FLAGS` entry raises `ValueError`. -/
def gpuCheck (devices : List Device) (xla_flags_ok : Bool) : Except AFError Unit :=
  match devices with
  | [] => .ok ()
  | d :: _ =>
    if d.compute_capability < 6 then
      .error (.valueError "AlphaFold 3 requires at least GPU compute capability 6.0.")
    else if 7 ≤ d.compute_capability ∧ d.compute_capability < 8 ∧ xla_flags_ok = false then
      .error (.valueError "For devices with GPU compute capability 7.x, you must include the --cuda_compute_7x flag.")
    else .ok ()

/-- Building `pipeline.DataPipelineConfig` (run_af3.py lines 586-606):
every database path flag is expanded through `replace_db_dir`; the first
failure propagates as `FileNotFoundError`. -/
def buildDataPipelineConfig (fs : FS) (db_dirs : List String) :
    List (List PathToken) → Except AFError (List String)
  | [] => .ok []
  | p :: rest => do
    let e ← replace_db_dir fs p db_dirs
    let es ← buildDataPipelineConfig fs db_dirs rest
    .ok (e :: es)

/-- The final loop of `main` (run_af3.py lines 631-642): process each
fold input in order, writing under
`os.path.join(args_dict[output_dir], fold_input.sanitised_name())`; an
exception aborts the loop. -/
def mainLoop (exampleFor : FoldInput → Int → FeaturisedExample)
    (data_pipeline : Option (FoldInput → FoldInput))
    (model_runner : Option ModelRunner) (output_dir : String) (fs : FS)
    (now : String) : List FoldInput → List Effect × Except AFError Unit
  | [] => ([], .ok ())
  | fold_input :: rest =>
    match process_fold_input exampleFor fold_input data_pipeline model_runner
        (output_dir ++ "/" ++ fold_input.sanitised_name) fs now with
    | .error e => ([.processInput fold_input.name], .error e)
    | .ok _ =>
      let p := mainLoop exampleFor data_pipeline model_runner output_dir fs now rest
      (Effect.processInput fold_input.name :: p.1, p.2)

/-- The function `main` (run_af3.py lines 507-644).

The first check embeds the chained comparison on line 513,
`args_dict[json_path] is None == args_dict[input_dir] is None`, which in
Python chains as
`(json_path is None) and (None == input_dir) and (input_dir is None)` -
so the `ValueError` fires only when both flags are absent, not when both
are provided. -/
def main (args : Args) (env : Env) : List Effect × Except AFError Unit :=
  if args.json_path = none ∧ (none : Option String) = args.input_dir ∧
      args.input_dir = none then
    ([], .error (.valueError "Exactly one of --json_path or --input_dir must be specified."))
  else if args.run_inference = false ∧ args.run_data_pipeline = false then
    ([], .error (.valueError "At least one of --run_inference or --run_data_pipeline must be set to true."))
  else if env.mkdir_ok = false then
    ([Effect.mkdirOutput args.output_dir], .error .osError)
  else
    match loadChoice args with
    | .error e => ([Effect.mkdirOutput args.output_dir], .error e)
    | .ok src =>
      let effs := [Effect.mkdirOutput args.output_dir, Effect.loadInputs src]
      match (if args.run_inference then gpuCheck env.gpu_devices env.xla_flags_ok
             else Except.ok () : Except AFError Unit) with
      | .error e => (effs, .error e)
      | .ok _ =>
        match (if args.run_data_pipeline then
                 (buildDataPipelineConfig env.fs env.db_dirs env.db_paths).map
                   (fun _ => some env.pipelineProcess)
               else Except.ok none : Except AFError (Option (FoldInput → FoldInput))) with
        | .error e => (effs, .error e)
        | .ok data_pipeline =>
          match (if args.run_inference then
                   match env.gpu_devices with
                   | [] => Except.error AFError.indexError
                   | _ :: _ =>
                     Except.ok (some { run_inference := env.runInferenceFn
                                       extract_structures := env.extractFn })
                 else Except.ok none : Except AFError (Option ModelRunner)) with
          | .error e => (effs, .error e)
          | .ok model_runner =>
            let p := mainLoop env.exampleFor data_pipeline model_runner
              args.output_dir env.fs env.now env.fold_inputs
            (effs ++ p.1, p.2)

/-! ### Claims C1, C7, C8 -/

/-- C8: when both run-mode switches are false, `main` raises a
`ValueError` having performed no effect - in particular before creating
the output directory and before loading any fold input. -/
theorem main_no_run_mode (args : Args) (env : Env)
    (h1 : args.run_inference = false) (h2 : args.run_data_pipeline = false) :
    ∃ m, main args env = ([], .error (.valueError m)) := by
  by_cases hj : args.json_path = none ∧ (none : Option String) = args.input_dir ∧
      args.input_dir = none
  · exact ⟨"Exactly one of --json_path or --input_dir must be specified.",
      by simp only [main, if_pos hj]⟩
  · exact ⟨"At least one of --run_inference or --run_data_pipeline must be set to true.",
      by simp only [main, if_neg hj, if_pos (And.intro h1 h2)]⟩

/-- A benign environment for the concrete `main` runs. -/
def envW : Env :=
  { gpu_devices := [], xla_flags_ok := true, mkdir_ok := true, fold_inputs := []
    fs := fsEmptyDir, now := "T", db_dirs := [], db_paths := []
    pipelineProcess := id, exampleFor := exFnW
    runInferenceFn := mrW.run_inference, extractFn := mrW.extract_structures }

/-- Concrete arguments with both run-mode switches off. -/
def argsNoRun : Args :=
  { json_path := some "/a.json", input_dir := none, output_dir := "/o"
    run_data_pipeline := false, run_inference := false }

/-- Witness for C8 at a concrete input. -/
theorem main_no_run_mode_witness :
    argsNoRun.run_inference = false ∧ argsNoRun.run_data_pipeline = false ∧
    ∃ m, main argsNoRun envW = ([], .error (.valueError m)) :=
  ⟨rfl, rfl, main_no_run_mode argsNoRun envW rfl rfl⟩

/-- C7: with `run_inference` set (and the output directory creatable), a
first local GPU device of compute capability below 6.0 makes `main`
raise a `ValueError` before any fold input is processed; and when
`run_inference` is not set, `main` does not depend on the GPU devices at
all (no accelerator check is performed). -/
theorem main_gpu_compat (args : Args) (env : Env) :
    (args.run_inference = true → env.mkdir_ok = true →
      ∀ d rest, env.gpu_devices = d :: rest → d.compute_capability < 6 →
        (∃ m, (main args env).2 = .error (.valueError m)) ∧
        ∀ e ∈ (main args env).1, e.isProcess = false) ∧
    (args.run_inference = false →
      ∀ ds, main args env = main args { env with gpu_devices := ds }) := by
  constructor
  · intro hri hmk d rest hdev hcc
    by_cases hj : args.json_path = none ∧ (none : Option String) = args.input_dir ∧
        args.input_dir = none
    · have hmain : main args env =
          ([], .error (.valueError "Exactly one of --json_path or --input_dir must be specified.")) := by
        simp only [main, if_pos hj]
      rw [hmain]
      exact ⟨⟨_, rfl⟩, by intro e he; simp at he⟩
    · have hrc : ¬(args.run_inference = false ∧ args.run_data_pipeline = false) := by
        intro hc; rw [hri] at hc; exact absurd hc.1 (by simp)
      have hmkne : ¬(env.mkdir_ok = false) := by rw [hmk]; simp
      cases hload : loadChoice args with
      | error e =>
        exfalso
        apply hj
        simp only [loadChoice] at hload
        cases hi : args.input_dir with
        | some dd => rw [hi] at hload; exact absurd hload (by simp)
        | none =>
          rw [hi] at hload
          cases hjp : args.json_path with
          | some pp => rw [hjp] at hload; exact absurd hload (by simp)
          | none => refine ⟨?_, ?_, ?_⟩ <;> simp [hjp, hi]
      | ok src =>
        have hgpu : (if args.run_inference then
            gpuCheck env.gpu_devices env.xla_flags_ok
            else Except.ok () : Except AFError Unit) =
            .error (.valueError "AlphaFold 3 requires at least GPU compute capability 6.0.") := by
          rw [hri]
          rw [if_pos rfl]
          rw [hdev]
          simp only [gpuCheck]
          rw [if_pos hcc]
        have hmain : main args env =
            ([Effect.mkdirOutput args.output_dir, Effect.loadInputs src],
             .error (.valueError "AlphaFold 3 requires at least GPU compute capability 6.0.")) := by
          simp only [main, if_neg hj, if_neg hrc, if_neg hmkne, hload, hgpu]
        rw [hmain]
        refine ⟨⟨_, rfl⟩, ?_⟩
        intro e he
        rcases List.mem_cons.mp he with rfl | he2
        · rfl
        · rcases List.mem_cons.mp he2 with rfl | he3
          · rfl
          · simp at he3
  · intro hri ds
    simp [main, hri]

/-- Concrete arguments for the C7 witness: inference requested, with an
incompatible (compute capability 5) GPU. -/
def argsGpu : Args :=
  { json_path := none, input_dir := some "/in", output_dir := "/o"
    run_data_pipeline := false, run_inference := true }

/-- Environment with a single compute-capability-5 GPU device. -/
def envGpu : Env :=
  { gpu_devices := [{ compute_capability := 5 }], xla_flags_ok := true
    mkdir_ok := true, fold_inputs := [fiW], fs := fsEmptyDir, now := "T"
    db_dirs := [], db_paths := [], pipelineProcess := id, exampleFor := exFnW
    runInferenceFn := mrW.run_inference, extractFn := mrW.extract_structures }

/-- Witness for C7 at a concrete input. -/
theorem main_gpu_compat_witness :
    (∃ m, (main argsGpu envGpu).2 = .error (.valueError m)) ∧
    ∀ e ∈ (main argsGpu envGpu).1, e.isProcess = false :=
  (main_gpu_compat argsGpu envGpu).1 rfl rfl { compute_capability := 5 } [] rfl
    (by norm_num)

/-- C1 failing input: both `--json_path` and `--input_dir` provided. -/
def argsBothInputs : Args :=
  { json_path := some "/a.json", input_dir := some "/inputs", output_dir := "/out"
    run_data_pipeline := true, run_inference := false }

/-- C1 second input: both `--json_path` and `--input_dir` absent. -/
def argsNeitherInput : Args :=
  { json_path := none, input_dir := none, output_dir := "/out"
    run_data_pipeline := true, run_inference := false }

/-- C1 evaluated at its failing input: the chained comparison on
run_af3.py line 513 means the mutual-exclusion `ValueError` fires only
when both input flags are absent.  With both flags provided, `main`
does not raise - it creates the output directory and loads the fold
inputs from `input_dir` - contradicting the documented
"exactly one of --json_path or --input_dir" validation; with both
absent, it raises as documented. -/
theorem main_mutual_exclusion_code_bug :
    main argsBothInputs envW =
      ([Effect.mkdirOutput "/out", Effect.loadInputs (.fromDir "/inputs")], .ok ()) ∧
    main argsNeitherInput envW =
      ([], .error (.valueError "Exactly one of --json_path or --input_dir must be specified.")) := by
  exact ⟨rfl, rfl⟩

end AF3
